import Mathlib

/-!
A verification development for the substrait-go plan-builder slice: the
time-of-day literal constructors (from `literal/utils.go`) and the plan
builder / wire codec (modelled from the specification, since only the
builder's test file is part of the visible slice).
-/

namespace SubstraitGo

/-- Structural decidable equality for `Except` results, so properties of the
fallible operations below can be evaluated on concrete inputs. -/
instance {ε α : Type} [DecidableEq ε] [DecidableEq α] : DecidableEq (Except ε α)
  | .ok x, .ok y =>
    if h : x = y then isTrue (congrArg Except.ok h)
    else isFalse (fun hc => h (Except.ok.inj hc))
  | .ok _, .error _ => isFalse (fun hc => Except.noConfusion hc)
  | .error _, .ok _ => isFalse (fun hc => Except.noConfusion hc)
  | .error x, .error y =>
    if h : x = y then isTrue (congrArg Except.error h)
    else isFalse (fun hc => h (Except.error.inj hc))

/-! ## Go integer semantics helpers -/

/-- Wrap an unbounded integer to the two's-complement int64 range, as Go
arithmetic on `int64` (and hence on `time.Duration`) does on overflow. -/
def wrap64 (n : Int) : Int :=
  (n + 2 ^ 63) % 2 ^ 64 - 2 ^ 63

/-- Go's integer division truncates toward zero. -/
def goDiv (a b : Int) : Int := Int.tdiv a b

/-! ## Time literal constructors, from `literal/utils.go` -/

/-- Microseconds in 24 hours: `(24*time.Hour).Microseconds()`. -/
def microsPerDay : Int := 86400000000

/-- Embedding of `NewTimeFromMicros` from `literal/utils.go`: range-check the
microsecond value and build a Time literal holding it.  The result models
`(expr.Literal, error)` as `Except`: an `ok` carries the stored Time value in
microseconds. -/
def NewTimeFromMicros (micros : Int) : Except String Int :=
  if micros < 0 ∨ microsPerDay ≤ micros then
    .error ("invalid time value " ++ toString micros)
  else
    .ok micros

/-- Embedding of `NewTime` from `literal/utils.go`: the components are
multiplied into a `time.Duration` (int64 nanoseconds, wrapping on overflow,
left-associated as in the source), converted to microseconds by truncating
division by 1000, range-checked, and stored. -/
def NewTime (hours minutes seconds microseconds : Int) : Except String Int :=
  let duration : Int :=
    wrap64 (wrap64 (wrap64 (wrap64 (hours * 3600000000000) +
      wrap64 (minutes * 60000000000)) +
      wrap64 (seconds * 1000000000)) +
      wrap64 (microseconds * 1000))
  let micros := goDiv duration 1000
  if micros < 0 ∨ microsPerDay ≤ micros then
    .error "invalid time value"
  else
    .ok micros

/-! ## Plan-builder data model

Modelled from the spec: the plan-builder implementation (`plan` package) is
not part of the visible source slice (only its test file is), so the data
model below follows §2–§4 of the specification and the concrete behavior
pinned down by `plan/plan_builder_test.go`. -/

/-- Modelled from the spec: the closed set of primitive column types used by
the visible slice (§3 Record Type model). -/
inductive BaseType where
  | boolean
  | i32
  | i64
  | fp32
  | string
  deriving DecidableEq

/-- Canonical rendering of a base type, as used in `NSTRUCT<...>` output. -/
def BaseType.render : BaseType → String
  | .boolean => "boolean"
  | .i32 => "i32"
  | .i64 => "i64"
  | .fp32 => "fp32"
  | .string => "string"

/-- Modelled from the spec: a type together with its nullability flag. -/
structure NType where
  base : BaseType
  nullable : Bool
  deriving DecidableEq

def NType.render (t : NType) : String :=
  t.base.render ++ (if t.nullable then "?" else "")

/-- Modelled from the spec: one column of a record type — name, type,
nullability (§3 RecordType). -/
structure Column where
  name : String
  ty : NType
  deriving DecidableEq

/-- Force a column nullable, for the join nullability matrix. -/
def Column.forceNullable (c : Column) : Column :=
  { c with ty := { c.ty with nullable := true } }

/-- Modelled from the spec: render a record type as
`NSTRUCT<name: type[?], ...>` (§3). -/
def renderRecord (cols : List Column) : String :=
  "NSTRUCT<" ++
    String.intercalate ", " (cols.map (fun c => c.name ++ ": " ++ c.ty.render)) ++
    ">"

/-- Modelled from the spec: a named, ordered schema — parallel name list and
typed/nullable column list (§3 NamedStruct). -/
structure NamedStruct where
  names : List String
  struct : List NType
  deriving DecidableEq

/-- Pair a (possibly shorter) name list with a type list, column by column;
the field count is determined by the type list. -/
def nameColumns : List String → List NType → List Column
  | _, [] => []
  | [], t :: ts => ⟨"", t⟩ :: nameColumns [] ts
  | n :: ns, t :: ts => ⟨n, t⟩ :: nameColumns ns ts

/-- Modelled from the spec: an expression is a field reference carrying its
root-relative column index and its resolved result type (§3 Expression; the
literal collaborator is out of scope of the core). -/
structure Expression where
  field : Nat
  ty : NType
  deriving DecidableEq

/-- Modelled from the spec: the closed join-type enumeration (§3). -/
inductive JoinType where
  | unspecified
  | inner
  | outer
  | left
  | right
  | semi
  | anti
  | single
  deriving DecidableEq

/-- Modelled from the spec: an aggregate measure — a bound function reference
(anchor), optional argument expressions, and its declared output type (§3
AggRelMeasure). -/
structure Measure where
  funcRef : Nat
  args : List Expression
  outputType : NType
  deriving DecidableEq

/-- Modelled from the spec: the closed tagged relation tree (§3 Relation).
Every variant optionally carries an output remap (emit), stored as validated
indices into the variant's natural output. -/
inductive Relation where
  | read (tableNames : List String) (baseSchema : NamedStruct)
      (emit : Option (List Nat))
  | filterRel (input : Relation) (cond : Expression) (emit : Option (List Nat))
  | fetch (input : Relation) (offset count : Int) (emit : Option (List Nat))
  | cross (left right : Relation) (emit : Option (List Nat))
  | join (left right : Relation) (joinKind : JoinType) (cond : Expression)
      (postJoinFilter : Option Expression) (emit : Option (List Nat))
  | aggregate (input : Relation) (groupings : List (List Expression))
      (measures : List Measure) (emit : Option (List Nat))
  deriving DecidableEq

/-- Modelled from the spec: the join output record type, per the seven-way
nullability matrix of §4.2.  (`unspecified` never reaches a materialized
join; its arm is arbitrary.) -/
def joinRecord (jt : JoinType) (l r : List Column) : List Column :=
  match jt with
  | .inner => l ++ r
  | .left => l ++ r.map Column.forceNullable
  | .right => l.map Column.forceNullable ++ r
  | .outer => l.map Column.forceNullable ++ r.map Column.forceNullable
  | .single => l ++ r.map Column.forceNullable
  | .semi => l
  | .anti => l
  | .unspecified => l ++ r

/-- Apply a stored output remap lazily when the visible record type is
asked for (§4.1). -/
def applyEmit (cols : List Column) : Option (List Nat) → List Column
  | none => cols
  | some idxs => idxs.filterMap (fun i => cols[i]?)

/-- Modelled from the spec: the visible (post-remap) record type of a
relation, computed by exhaustive match over the operator tag (§4.2). -/
def Relation.recordType : Relation → List Column
  | .read _ schema emit => applyEmit (nameColumns schema.names schema.struct) emit
  | .filterRel input _ emit => applyEmit input.recordType emit
  | .fetch input _ _ emit => applyEmit input.recordType emit
  | .cross l r emit => applyEmit (l.recordType ++ r.recordType) emit
  | .join l r jt _ _ emit => applyEmit (joinRecord jt l.recordType r.recordType) emit
  | .aggregate _ groupings measures emit =>
      applyEmit
        (groupings.flatten.map (fun e => ⟨"", e.ty⟩) ++
          measures.map (fun m => ⟨"", m.outputType⟩)) emit

/-! ## Builder construction operations

Modelled from the spec: each construction performs, in order, (a) required
input checks, (b) operator-specific structural checks, (c) output-remap
bounds checks, and only then returns the new immutable relation (§4.1).
Error kinds and messages follow §7 and the behavior pinned by the tests. -/

/-- Modelled from the spec: the closed enumeration of construction-time
error kinds, each carrying a human-readable message (§7, §9). -/
inductive BuildError where
  | invalidRel (msg : String)
  | invalidArg (msg : String)
  deriving DecidableEq

/-- The shared invalid-relation error for an absent required input. -/
def nilInputErr : BuildError := .invalidRel "input Relation must not be nil"

/-- The shared invalid-relation error for an out-of-bounds output remap. -/
def emitOutOfRangeErr : BuildError := .invalidRel "output mapping index out of range"

/-- The shared invalid-relation error for an absent required condition
(the source reuses the filter wording for joins as well, §9). -/
def nilCondErr : BuildError := .invalidRel "cannot use nil condition in filter relation"

/-- Modelled from the spec: validate a supplied output remap against the
natural field count — every index must lie in `[0, fullFieldCount)` — and
store it as metadata (§4.1). -/
def checkEmit (count : Nat) : Option (List Int) → Except BuildError (Option (List Nat))
  | none => .ok none
  | some idxs =>
    if idxs.all (fun i => decide (0 ≤ i ∧ i < (count : Int))) then
      .ok (some (idxs.map Int.toNat))
    else
      .error emitOutOfRangeErr

/-- Modelled from the spec: `NamedScan` — a leaf read of a named table with
its declared schema (§4.2 Read/Scan). -/
def namedScan (tableNames : List String) (schema : NamedStruct) : Relation :=
  .read tableNames schema none

/-- Modelled from the spec: `NamedScanRemap` — a read with an output remap,
bounds-checked against the declared schema's field count. -/
def namedScanRemap (tableNames : List String) (schema : NamedStruct)
    (remap : List Int) : Except BuildError Relation := do
  let e ← checkEmit schema.struct.length (some remap)
  .ok (.read tableNames schema e)

/-- Modelled from the spec: `RootFieldRef` — a field reference into a single
relation's visible record type; the index must be non-negative and within
the field count (§4.3). -/
def rootFieldRef (rel : Relation) (index : Int) : Except BuildError Expression :=
  match rel.recordType[index.toNat]? with
  | some c =>
    if 0 ≤ index ∧ index < (rel.recordType.length : Int) then
      .ok ⟨index.toNat, c.ty⟩
    else
      .error (.invalidArg ("cannot create field ref index " ++ toString index))
  | none => .error (.invalidArg ("cannot create field ref index " ++ toString index))

/-- Modelled from the spec: `JoinedRecordFieldRef` — a field reference into
the synthetic concatenation of two relations' record types (§4.3). -/
def joinedRecordFieldRef (left right : Relation) (index : Int) :
    Except BuildError Expression :=
  match (left.recordType ++ right.recordType)[index.toNat]? with
  | some c =>
    if 0 ≤ index ∧
        index < ((left.recordType ++ right.recordType).length : Int) then
      .ok ⟨index.toNat, c.ty⟩
    else
      .error (.invalidArg ("cannot create field ref index " ++ toString index))
  | none => .error (.invalidArg ("cannot create field ref index " ++ toString index))

/-- Modelled from the spec: the shared core of `Filter`/`FilterRemap` —
input present, condition present and boolean-typed, remap in bounds
(§4.1, §4.2 Filter). -/
def filterCore (input : Option Relation) (condition : Option Expression)
    (remap : Option (List Int)) : Except BuildError Relation :=
  match input with
  | none => .error nilInputErr
  | some inp =>
    match condition with
    | none => .error nilCondErr
    | some c =>
      if c.ty.base = BaseType.boolean then do
        let e ← checkEmit inp.recordType.length remap
        .ok (.filterRel inp c e)
      else
        .error (.invalidArg
          ("condition for Filter Relation must yield boolean, not " ++ c.ty.base.render))

def filter (input : Option Relation) (condition : Option Expression) :
    Except BuildError Relation :=
  filterCore input condition none

def filterRemap (input : Option Relation) (condition : Option Expression)
    (remap : List Int) : Except BuildError Relation :=
  filterCore input condition (some remap)

/-- Modelled from the spec: the shared core of `Fetch`/`FetchRemap` —
offset and count do not affect the output shape (§4.2 Fetch). -/
def fetchCore (input : Option Relation) (offset count : Int)
    (remap : Option (List Int)) : Except BuildError Relation :=
  match input with
  | none => .error nilInputErr
  | some inp => do
    let e ← checkEmit inp.recordType.length remap
    .ok (.fetch inp offset count e)

def fetch (input : Option Relation) (offset count : Int) :
    Except BuildError Relation :=
  fetchCore input offset count none

def fetchRemap (input : Option Relation) (offset count : Int)
    (remap : List Int) : Except BuildError Relation :=
  fetchCore input offset count (some remap)

/-- Modelled from the spec: the shared core of `Cross`/`CrossRemap` — the
natural output is left columns then right columns, nullability unchanged
(§4.2 Cross). -/
def crossCore (left right : Option Relation) (remap : Option (List Int)) :
    Except BuildError Relation :=
  match left with
  | none => .error nilInputErr
  | some l =>
    match right with
    | none => .error nilInputErr
    | some r => do
      let e ← checkEmit (l.recordType.length + r.recordType.length) remap
      .ok (.cross l r e)

def cross (left right : Option Relation) : Except BuildError Relation :=
  crossCore left right none

def crossRemap (left right : Option Relation) (remap : List Int) :
    Except BuildError Relation :=
  crossCore left right (some remap)

/-- Modelled from the spec: the shared core of `Join`/`JoinRemap`/
`JoinAndFilter` — inputs present, condition present and boolean, join type
not unspecified, optional post-join filter boolean when present, remap
bounds-checked against the matrix output (§4.1, §4.2 Join). -/
def joinCore (left right : Option Relation) (condition : Option Expression)
    (postJoinFilter : Option Expression) (joinKind : JoinType)
    (remap : Option (List Int)) : Except BuildError Relation :=
  match left with
  | none => .error nilInputErr
  | some l =>
    match right with
    | none => .error nilInputErr
    | some r =>
      match condition with
      | none => .error nilCondErr
      | some c =>
        if c.ty.base = BaseType.boolean then
          if joinKind = JoinType.unspecified then
            .error (.invalidArg "join type must not be unspecified for Join relations")
          else
            match postJoinFilter with
            | some p =>
              if p.ty.base = BaseType.boolean then do
                let e ← checkEmit (joinRecord joinKind l.recordType r.recordType).length remap
                .ok (.join l r joinKind c (some p) e)
              else
                .error (.invalidArg
                  ("post join filter must be either nil or yield a boolean, not " ++
                    p.ty.base.render))
            | none => do
              let e ← checkEmit (joinRecord joinKind l.recordType r.recordType).length remap
              .ok (.join l r joinKind c none e)
        else
          .error (.invalidArg
            ("condition for Join Relation must yield boolean, not " ++ c.ty.base.render))

def join (left right : Option Relation) (condition : Option Expression)
    (joinKind : JoinType) : Except BuildError Relation :=
  joinCore left right condition none joinKind none

def joinRemap (left right : Option Relation) (condition : Option Expression)
    (joinKind : JoinType) (remap : List Int) : Except BuildError Relation :=
  joinCore left right condition none joinKind (some remap)

def joinAndFilter (left right : Option Relation) (condition postJoinFilter : Option Expression)
    (joinKind : JoinType) : Except BuildError Relation :=
  joinCore left right condition postJoinFilter joinKind none

/-- Modelled from the spec: validate grouping expression lists — no empty
list and no absent expression within a list (§4.2 Aggregate, §7). -/
def checkGroupings : List (List (Option Expression)) →
    Except BuildError (List (List Expression))
  | [] => .ok []
  | g :: gs =>
    if g.isEmpty ∨ g.any (fun e => e.isNone) then
      .error (.invalidRel "groupings cannot contain empty expression list or nil expression")
    else do
      let rest ← checkGroupings gs
      .ok (g.filterMap id :: rest)

/-- Modelled from the spec: the shared tail of the aggregate constructions —
validated groupings and measures must not both be empty; the natural output
is grouping expression types then measure output types (§4.2 Aggregate). -/
def aggregateFinish (inp : Relation) (groupings : List (List Expression))
    (measures : List Measure) (remap : Option (List Int)) :
    Except BuildError Relation :=
  if groupings.isEmpty ∧ measures.isEmpty then
    .error (.invalidRel "must have at least one grouping expression or measure")
  else do
    let e ← checkEmit
      (groupings.flatten.length + measures.length) remap
    .ok (.aggregate inp groupings measures e)

/-- Modelled from the spec: the shared core of `AggregateExprs` and
`AggregateExprsRemap`. -/
def aggregateExprsCore (input : Option Relation) (measures : List Measure)
    (groupings : List (List (Option Expression))) (remap : Option (List Int)) :
    Except BuildError Relation :=
  match input with
  | none => .error nilInputErr
  | some inp => do
    let gs ← checkGroupings groupings
    aggregateFinish inp gs measures remap

def aggregateExprs (input : Option Relation) (measures : List Measure)
    (groupings : List (List (Option Expression))) : Except BuildError Relation :=
  aggregateExprsCore input measures groupings none

def aggregateExprsRemap (input : Option Relation) (remap : List Int)
    (measures : List Measure) (groupings : List (List (Option Expression))) :
    Except BuildError Relation :=
  aggregateExprsCore input measures groupings (some remap)

/-- Build root-relative field references for a list of grouping column
indices, failing on the first invalid index (§4.2 Aggregate, §4.3). -/
def buildColumnRefs (inp : Relation) : List Int → Except BuildError (List Expression)
  | [] => .ok []
  | i :: is => do
    let r ← rootFieldRef inp i
    let rest ← buildColumnRefs inp is
    .ok (r :: rest)

/-- Modelled from the spec: the shared core of `AggregateColumns` and
`AggregateColumnsRemap` — grouping columns become one grouping set of
root-relative field references. -/
def aggregateColumnsCore (input : Option Relation) (measures : List Measure)
    (cols : List Int) (remap : Option (List Int)) : Except BuildError Relation :=
  match input with
  | none => .error nilInputErr
  | some inp => do
    let refs ← buildColumnRefs inp cols
    let gs := if refs.isEmpty then [] else [refs]
    aggregateFinish inp gs measures remap

def aggregateColumns (input : Option Relation) (measures : List Measure)
    (cols : List Int) : Except BuildError Relation :=
  aggregateColumnsCore input measures cols none

def aggregateColumnsRemap (input : Option Relation) (remap : List Int)
    (measures : List Measure) (cols : List Int) : Except BuildError Relation :=
  aggregateColumnsCore input measures cols (some remap)

/-! ## Plan assembly

Modelled from the spec: a Plan is an ordered sequence of (root relation,
output-name list) pairs plus the extension-anchor tables actually referenced
and version metadata (§3 Plan, §4.5). -/

structure Version where
  major : Nat
  minor : Nat
  patch : Nat
  producer : String
  deriving DecidableEq

/-- The builder's default version metadata, as in the tests' expected wire
output. -/
def defaultVersion : Version := ⟨0, 29, 0, "substrait-go"⟩

/-- One entry of the extension-URI table: anchor and URI (§4.4, §6). -/
structure UriRecord where
  anchor : Nat
  uri : String
  deriving DecidableEq

/-- One entry of the extension-function table: URI anchor, function anchor,
function name (§4.4, §6). -/
structure FnRecord where
  uriAnchor : Nat
  fnAnchor : Nat
  name : String
  deriving DecidableEq

/-- A plan root: a relation plus its output-name list. -/
structure Root where
  input : Relation
  names : List String
  deriving DecidableEq

/-- Replace the visible columns' names by the root's output names. -/
def renameColumns : List String → List Column → List Column
  | _, [] => []
  | [], c :: cs => c :: renameColumns [] cs
  | n :: ns, c :: cs => ⟨n, c.ty⟩ :: renameColumns ns cs

/-- The record type visible at a plan root: the relation's visible record
type under the root's output names. -/
def Root.recordType (rt : Root) : List Column :=
  renameColumns rt.names rt.input.recordType

structure Plan where
  version : Version
  uris : List UriRecord
  fns : List FnRecord
  roots : List Root
  deriving DecidableEq

/-- Modelled from the spec: assemble a plan from (root, output names) pairs;
each name list's length must equal the root's visible field count (§4.5). -/
def buildPlan (version : Version) (uris : List UriRecord) (fns : List FnRecord)
    (pairs : List (Relation × List String)) : Except BuildError Plan :=
  if pairs.all (fun p => decide (p.2.length = p.1.recordType.length)) then
    .ok ⟨version, uris, fns, pairs.map (fun p => ⟨p.1, p.2⟩)⟩
  else
    .error (.invalidRel "mismatched number of names and result record columns")

/-! ## Wire codec

Modelled from the spec: the wire format is a versioned Plan message carrying
the version metadata, the ordered extension-URI list, the ordered
extension-function list, and the ordered (relation tree, output names)
roots; relations and expressions serialize as discriminated variants
matching their tags, types carry a nullability enumeration, and a field
reference carries only its column index — its type is re-derived from
context on decode (§4.6, §6). -/

/-- Wire form of a type: variant tag plus the nullability enumeration
(0 unspecified, 1 nullable, 2 required). -/
structure ProtoType where
  kind : BaseType
  nullability : Nat
  deriving DecidableEq

structure ProtoNamedStruct where
  names : List String
  struct : List ProtoType
  deriving DecidableEq

/-- Wire form of a field-reference expression: root reference plus direct
struct-field index only. -/
structure ProtoExpr where
  field : Nat
  deriving DecidableEq

structure ProtoMeasure where
  functionReference : Nat
  args : List ProtoExpr
  outputType : ProtoType
  deriving DecidableEq

/-- Wire form of the relation tree; the `emit` is the common output-mapping
section (`direct` when absent). -/
inductive ProtoRel where
  | read (tableNames : List String) (baseSchema : ProtoNamedStruct)
      (emit : Option (List Nat))
  | filterRel (input : ProtoRel) (cond : ProtoExpr) (emit : Option (List Nat))
  | fetch (input : ProtoRel) (offset count : Int) (emit : Option (List Nat))
  | cross (left right : ProtoRel) (emit : Option (List Nat))
  | join (left right : ProtoRel) (joinKind : Nat) (cond : ProtoExpr)
      (postJoinFilter : Option ProtoExpr) (emit : Option (List Nat))
  | aggregate (input : ProtoRel) (groupings : List (List ProtoExpr))
      (measures : List ProtoMeasure) (emit : Option (List Nat))
  deriving DecidableEq

structure ProtoRoot where
  input : ProtoRel
  names : List String
  deriving DecidableEq

structure ProtoPlan where
  version : Version
  uris : List UriRecord
  fns : List FnRecord
  relations : List ProtoRoot
  deriving DecidableEq

/-- Decode failures are a distinct error kind, separate from construction
validation (§7). -/
inductive DecodeError where
  | malformed (msg : String)
  deriving DecidableEq

/-! ### Encoding -/

def encodeType (t : NType) : ProtoType :=
  ⟨t.base, if t.nullable then 1 else 2⟩

def encodeSchema (s : NamedStruct) : ProtoNamedStruct :=
  ⟨s.names, s.struct.map encodeType⟩

def encodeExpr (e : Expression) : ProtoExpr := ⟨e.field⟩

def encodeMeasure (m : Measure) : ProtoMeasure :=
  ⟨m.funcRef, m.args.map encodeExpr, encodeType m.outputType⟩

def encodeJoinType : JoinType → Nat
  | .unspecified => 0
  | .inner => 1
  | .outer => 2
  | .left => 3
  | .right => 4
  | .semi => 5
  | .anti => 6
  | .single => 7

/-- Encode a relation tree as its wire variant (§4.6). -/
def encodeRel : Relation → ProtoRel
  | .read tns schema emit => .read tns (encodeSchema schema) emit
  | .filterRel inp c emit => .filterRel (encodeRel inp) (encodeExpr c) emit
  | .fetch inp o n emit => .fetch (encodeRel inp) o n emit
  | .cross l r emit => .cross (encodeRel l) (encodeRel r) emit
  | .join l r jt c post emit =>
      .join (encodeRel l) (encodeRel r) (encodeJoinType jt) (encodeExpr c)
        (post.map encodeExpr) emit
  | .aggregate inp gs ms emit =>
      .aggregate (encodeRel inp) (gs.map (fun g => g.map encodeExpr))
        (ms.map encodeMeasure) emit

/-- Encode a plan: version, ordered anchor tables, ordered roots (§4.6). -/
def Plan.toProto (p : Plan) : ProtoPlan :=
  ⟨p.version, p.uris, p.fns,
    p.roots.map (fun rt => ⟨encodeRel rt.input, rt.names⟩)⟩

/-! ### Decoding -/

def decodeNullability : Nat → Except DecodeError Bool
  | 1 => .ok true
  | 2 => .ok false
  | _ => .error (.malformed "unknown nullability")

def decodeType (t : ProtoType) : Except DecodeError NType := do
  let n ← decodeNullability t.nullability
  .ok ⟨t.kind, n⟩

def decodeTypeList : List ProtoType → Except DecodeError (List NType)
  | [] => .ok []
  | t :: ts => do
    let x ← decodeType t
    let xs ← decodeTypeList ts
    .ok (x :: xs)

def decodeSchema (s : ProtoNamedStruct) : Except DecodeError NamedStruct := do
  let ts ← decodeTypeList s.struct
  .ok ⟨s.names, ts⟩

/-- Decode a field reference against the record type it refers to,
re-deriving its result type from the context (§4.6). -/
def decodeExpr (ctx : List Column) (e : ProtoExpr) : Except DecodeError Expression :=
  match ctx[e.field]? with
  | some c => .ok ⟨e.field, c.ty⟩
  | none => .error (.malformed "field reference index out of range")

def decodeExprList (ctx : List Column) : List ProtoExpr →
    Except DecodeError (List Expression)
  | [] => .ok []
  | e :: es => do
    let x ← decodeExpr ctx e
    let xs ← decodeExprList ctx es
    .ok (x :: xs)

def decodeGroupings (ctx : List Column) : List (List ProtoExpr) →
    Except DecodeError (List (List Expression))
  | [] => .ok []
  | g :: gs => do
    let x ← decodeExprList ctx g
    let xs ← decodeGroupings ctx gs
    .ok (x :: xs)

def decodeMeasure (ctx : List Column) (m : ProtoMeasure) :
    Except DecodeError Measure := do
  let as ← decodeExprList ctx m.args
  let t ← decodeType m.outputType
  .ok ⟨m.functionReference, as, t⟩

def decodeMeasureList (ctx : List Column) : List ProtoMeasure →
    Except DecodeError (List Measure)
  | [] => .ok []
  | m :: ms => do
    let x ← decodeMeasure ctx m
    let xs ← decodeMeasureList ctx ms
    .ok (x :: xs)

def decodeJoinType : Nat → Except DecodeError JoinType
  | 1 => .ok .inner
  | 2 => .ok .outer
  | 3 => .ok .left
  | 4 => .ok .right
  | 5 => .ok .semi
  | 6 => .ok .anti
  | 7 => .ok .single
  | _ => .error (.malformed "unknown join type")

/-- Decode a wire relation tree back into the in-memory model, re-deriving
expression types from the decoded inputs' record types (§4.6). -/
def decodeRel : ProtoRel → Except DecodeError Relation
  | .read tns schema emit => do
    let s ← decodeSchema schema
    .ok (.read tns s emit)
  | .filterRel pin pc emit => do
    let inp ← decodeRel pin
    let c ← decodeExpr inp.recordType pc
    .ok (.filterRel inp c emit)
  | .fetch pin o n emit => do
    let inp ← decodeRel pin
    .ok (.fetch inp o n emit)
  | .cross pl pr emit => do
    let l ← decodeRel pl
    let r ← decodeRel pr
    .ok (.cross l r emit)
  | .join pl pr pjt pc ppost emit => do
    let l ← decodeRel pl
    let r ← decodeRel pr
    let jt ← decodeJoinType pjt
    let c ← decodeExpr (l.recordType ++ r.recordType) pc
    match ppost with
    | none => .ok (.join l r jt c none emit)
    | some pp => do
      let p ← decodeExpr (l.recordType ++ r.recordType) pp
      .ok (.join l r jt c (some p) emit)
  | .aggregate pin pgs pms emit => do
    let inp ← decodeRel pin
    let gs ← decodeGroupings inp.recordType pgs
    let ms ← decodeMeasureList inp.recordType pms
    .ok (.aggregate inp gs ms emit)

def decodeRootList : List ProtoRoot → Except DecodeError (List Root)
  | [] => .ok []
  | r :: rs => do
    let x ← decodeRel r.input
    let xs ← decodeRootList rs
    .ok (⟨x, r.names⟩ :: xs)

/-- Decode a wire plan into a fresh in-memory plan (§4.6). -/
def fromProto (pp : ProtoPlan) : Except DecodeError Plan := do
  let roots ← decodeRootList pp.relations
  .ok ⟨pp.version, pp.uris, pp.fns, roots⟩

/-! ### Validity

A plan produced by the builder satisfies this structural predicate: every
field reference's stored type agrees with the column it references (the
builder resolves references eagerly, §4.3), no materialized join is
`unspecified` (§3), and each root's name-list length equals its visible
field count (§3, §4.5). -/

def exprOkb (ctx : List Column) (e : Expression) : Bool :=
  match ctx[e.field]? with
  | some c => decide (c.ty = e.ty)
  | none => false

def Relation.wfb : Relation → Bool
  | .read _ _ _ => true
  | .filterRel inp c _ => inp.wfb && exprOkb inp.recordType c
  | .fetch inp _ _ _ => inp.wfb
  | .cross l r _ => l.wfb && r.wfb
  | .join l r jt c post _ =>
    l.wfb && r.wfb && decide (jt ≠ JoinType.unspecified) &&
      exprOkb (l.recordType ++ r.recordType) c &&
      (match post with
       | none => true
       | some p => exprOkb (l.recordType ++ r.recordType) p)
  | .aggregate inp gs ms _ =>
    inp.wfb && gs.all (fun g => g.all (exprOkb inp.recordType)) &&
      ms.all (fun m => m.args.all (exprOkb inp.recordType))

def Plan.wfb (p : Plan) : Bool :=
  p.roots.all (fun rt =>
    rt.input.wfb && decide (rt.names.length = rt.input.recordType.length))

/-! ## Round-trip lemmas for the wire codec -/

theorem okBind {ε α β : Type} (a : α) (f : α → Except ε β) :
    (Except.ok a >>= f : Except ε β) = f a := rfl

theorem decodeType_encodeType (t : NType) : decodeType (encodeType t) = .ok t := by
  cases t with
  | mk b n => cases n <;> rfl

theorem decodeTypeList_encode (ts : List NType) :
    decodeTypeList (ts.map encodeType) = .ok ts := by
  induction ts with
  | nil => rfl
  | cons t ts ih =>
    simp [decodeTypeList, decodeType_encodeType, ih, okBind]

theorem decodeSchema_encodeSchema (s : NamedStruct) :
    decodeSchema (encodeSchema s) = .ok s := by
  cases s with
  | mk ns ts => simp [decodeSchema, encodeSchema, decodeTypeList_encode, okBind]

theorem decodeExpr_encodeExpr (ctx : List Column) (e : Expression)
    (h : exprOkb ctx e = true) : decodeExpr ctx (encodeExpr e) = .ok e := by
  obtain ⟨f, t⟩ := e
  unfold exprOkb at h
  unfold decodeExpr encodeExpr
  cases hm : ctx[f]? with
  | none => rw [hm] at h; exact absurd h (by simp)
  | some c =>
    rw [hm] at h
    simp only [decide_eq_true_eq] at h
    simp [h]

theorem decodeExprList_encode (ctx : List Column) (es : List Expression)
    (h : es.all (exprOkb ctx) = true) :
    decodeExprList ctx (es.map encodeExpr) = .ok es := by
  induction es with
  | nil => rfl
  | cons e es ih =>
    simp only [List.all_cons, Bool.and_eq_true] at h
    simp [decodeExprList, decodeExpr_encodeExpr ctx e h.1, ih h.2, okBind]

theorem decodeGroupings_encode (ctx : List Column) (gs : List (List Expression))
    (h : gs.all (fun g => g.all (exprOkb ctx)) = true) :
    decodeGroupings ctx (gs.map (fun g => g.map encodeExpr)) = .ok gs := by
  induction gs with
  | nil => rfl
  | cons g gs ih =>
    simp only [List.all_cons, Bool.and_eq_true] at h
    simp [decodeGroupings, decodeExprList_encode ctx g h.1, ih h.2, okBind]

theorem decodeMeasure_encodeMeasure (ctx : List Column) (m : Measure)
    (h : m.args.all (exprOkb ctx) = true) :
    decodeMeasure ctx (encodeMeasure m) = .ok m := by
  obtain ⟨fr, args, t⟩ := m
  simp [decodeMeasure, encodeMeasure, decodeExprList_encode ctx args h,
    decodeType_encodeType, okBind]

theorem decodeMeasureList_encode (ctx : List Column) (ms : List Measure)
    (h : ms.all (fun m => m.args.all (exprOkb ctx)) = true) :
    decodeMeasureList ctx (ms.map encodeMeasure) = .ok ms := by
  induction ms with
  | nil => rfl
  | cons m ms ih =>
    simp only [List.all_cons, Bool.and_eq_true] at h
    simp [decodeMeasureList, decodeMeasure_encodeMeasure ctx m h.1, ih h.2, okBind]

theorem decodeJoinType_encodeJoinType (jt : JoinType) (h : jt ≠ JoinType.unspecified) :
    decodeJoinType (encodeJoinType jt) = .ok jt := by
  cases jt <;> first | rfl | exact absurd rfl h

/-- Decoding inverts encoding on every well-formed relation tree. -/
theorem decodeRel_encodeRel (r : Relation) (h : r.wfb = true) :
    decodeRel (encodeRel r) = .ok r := by
  induction r with
  | read tns schema emit =>
    simp [encodeRel, decodeRel, decodeSchema_encodeSchema, okBind]
  | filterRel inp c emit ih =>
    simp only [Relation.wfb, Bool.and_eq_true] at h
    simp [encodeRel, decodeRel, ih h.1, okBind, decodeExpr_encodeExpr _ c h.2]
  | fetch inp o n emit ih =>
    simp only [Relation.wfb] at h
    simp [encodeRel, decodeRel, ih h, okBind]
  | cross l r emit ihl ihr =>
    simp only [Relation.wfb, Bool.and_eq_true] at h
    simp [encodeRel, decodeRel, ihl h.1, ihr h.2, okBind]
  | join l r jt c post emit ihl ihr =>
    simp only [Relation.wfb, Bool.and_eq_true] at h
    obtain ⟨⟨⟨⟨hl, hr⟩, hjt⟩, hc⟩, hpost⟩ := h
    rw [decide_eq_true_eq] at hjt
    cases post with
    | none =>
      simp [encodeRel, decodeRel, ihl hl, ihr hr, okBind,
        decodeJoinType_encodeJoinType jt hjt, decodeExpr_encodeExpr _ c hc]
    | some p =>
      simp only at hpost
      simp [encodeRel, decodeRel, ihl hl, ihr hr, okBind,
        decodeJoinType_encodeJoinType jt hjt, decodeExpr_encodeExpr _ c hc,
        decodeExpr_encodeExpr _ p hpost]
  | aggregate inp gs ms emit ih =>
    simp only [Relation.wfb, Bool.and_eq_true] at h
    obtain ⟨⟨hi, hg⟩, hm⟩ := h
    simp [encodeRel, decodeRel, ih hi, okBind, decodeGroupings_encode _ gs hg,
      decodeMeasureList_encode _ ms hm]

theorem decodeRootList_encode (roots : List Root)
    (h : roots.all (fun rt => rt.input.wfb) = true) :
    decodeRootList (roots.map (fun rt => ⟨encodeRel rt.input, rt.names⟩)) = .ok roots := by
  induction roots with
  | nil => rfl
  | cons rt rts ih =>
    simp only [List.all_cons, Bool.and_eq_true] at h
    simp [decodeRootList, decodeRel_encodeRel rt.input h.1, ih h.2, okBind]

/-! ## Concrete fixtures, mirroring the test file's `baseSchema`/`baseSchema2` -/

/-- The tests' `baseSchema`: `{a: string, b: fp32}`, all required. -/
def schemaAB : NamedStruct :=
  ⟨["a", "b"], [⟨.string, false⟩, ⟨.fp32, false⟩]⟩

/-- The tests' `baseSchema2`: `{x: i32, y: boolean}`, all required. -/
def schemaXY : NamedStruct :=
  ⟨["x", "y"], [⟨.i32, false⟩, ⟨.boolean, false⟩]⟩

def scanAB : Relation := namedScan ["test"] schemaAB

def scanXY : Relation := namedScan ["test2"] schemaXY

/-- Field 3 of the joined `schemaAB ++ schemaXY` record: `y: boolean`. -/
def boolRef : Expression := ⟨3, ⟨.boolean, false⟩⟩

/-- Field 0 of `schemaAB`: `a: string`. -/
def strRef : Expression := ⟨0, ⟨.string, false⟩⟩

/-- The tests' `count()` measure: anchor 1, no arguments, output `i64`. -/
def countMeasure : Measure := ⟨1, [], ⟨.i64, false⟩⟩

/-- The type of column `i` of a record, with an arbitrary default out of
range (only used in-bounds). -/
def colType (ctx : List Column) (i : Nat) : NType :=
  ((ctx[i]?).getD ⟨"", ⟨.boolean, false⟩⟩).ty

/-! ## Claim theorems -/

set_option maxRecDepth 4096 in
/-- C9: the time-of-day constructors are claimed to fail exactly when the
total microseconds lie outside `[0, 86_400_000_000)`.  The code violates
this: `NewTime(5124096, 0, 0, 0)` has a total of 18_446_745_600_000_000
microseconds — far outside the range — yet the int64 nanosecond arithmetic
wraps around and the constructor succeeds with a Time literal of
1_526_290_448 microseconds.  `NewTimeFromMicros` on the same total does
return the error. -/
theorem newTime_overflow_bug :
    NewTime 5124096 0 0 0 = .ok 1526290448 ∧
      microsPerDay ≤ 5124096 * 3600000000 ∧
      NewTimeFromMicros (5124096 * 3600000000) =
        .error ("invalid time value " ++ toString (5124096 * 3600000000 : Int)) := by
  refine ⟨by rfl, by decide, by rfl⟩

/-- C7: scanning the schema `{a: string, b: fp32}` with output remap
`[1, 0]` and assembling it as a plan root yields the visible record type
`NSTRUCT<b: fp32, a: string>`. -/
theorem scan_remap_visible_record :
    (namedScanRemap ["test"] schemaAB [1, 0]).map Relation.recordType =
      .ok [⟨"b", ⟨.fp32, false⟩⟩, ⟨"a", ⟨.string, false⟩⟩] ∧
    ((namedScanRemap ["test"] schemaAB [1, 0]).bind
        (fun rel => buildPlan defaultVersion [] [] [(rel, ["b", "a"])])).map
        (fun p => p.roots.map (fun rt => renderRecord rt.recordType)) =
      .ok ["NSTRUCT<b: fp32, a: string>"] := by
  refine ⟨by decide, by decide⟩

/-- C10: the empty output remap is accepted, yields the empty visible
record type rendered `NSTRUCT<>`, assembles into a plan with an empty
output-name list, and that plan round-trips through the wire codec to a
structurally equal plan. -/
theorem empty_remap_plan :
    namedScanRemap ["test"] schemaAB [] =
      .ok (.read ["test"] schemaAB (some [])) ∧
    buildPlan defaultVersion [] [] [(.read ["test"] schemaAB (some []), [])] =
      .ok ⟨defaultVersion, [], [], [⟨.read ["test"] schemaAB (some []), []⟩]⟩ ∧
    renderRecord (Root.recordType ⟨.read ["test"] schemaAB (some []), []⟩) =
      "NSTRUCT<>" ∧
    fromProto (Plan.toProto ⟨defaultVersion, [], [], [⟨.read ["test"] schemaAB (some []), []⟩]⟩) =
      .ok ⟨defaultVersion, [], [], [⟨.read ["test"] schemaAB (some []), []⟩]⟩ := by
  refine ⟨by decide, by decide, by decide, by decide⟩

/-- C8: with both inputs present and a boolean condition, constructing a
join with the `unspecified` join type fails with the invalid-argument
error; no relation with an unspecified join type is ever produced. -/
theorem join_unspecified_rejected (l r : Relation) (c : Expression)
    (hc : c.ty.base = BaseType.boolean) :
    join (some l) (some r) (some c) JoinType.unspecified =
      .error (.invalidArg "join type must not be unspecified for Join relations") := by
  simp [join, joinCore, hc]

/-- C8 witness: the rejection at the tests' concrete join inputs. -/
theorem join_unspecified_rejected_witness :
    boolRef.ty.base = BaseType.boolean ∧
      join (some scanAB) (some scanXY) (some boolRef) JoinType.unspecified =
        .error (.invalidArg "join type must not be unspecified for Join relations") :=
  ⟨by decide, join_unspecified_rejected scanAB scanXY boolRef (by decide)⟩

/-- C6: every construction with an absent required input relation fails
with the invalid-relation error, regardless of all other arguments. -/
theorem nil_input_rejected (other : Option Relation) (c : Option Expression)
    (post : Option Expression) (jt : JoinType) (off cnt : Int)
    (ms : List Measure) (gs : List (List (Option Expression)))
    (cols : List Int) (remap : Option (List Int)) :
    filterCore none c remap = .error nilInputErr ∧
    fetchCore none off cnt remap = .error nilInputErr ∧
    crossCore none other remap = .error nilInputErr ∧
    crossCore other none remap = .error nilInputErr ∧
    joinCore none other c post jt remap = .error nilInputErr ∧
    joinCore other none c post jt remap = .error nilInputErr ∧
    aggregateExprsCore none ms gs remap = .error nilInputErr ∧
    aggregateColumnsCore none ms cols remap = .error nilInputErr := by
  refine ⟨rfl, rfl, rfl, ?_, rfl, ?_, rfl, rfl⟩
  · cases other <;> rfl
  · cases other <;> rfl

/-- C5: a present filter condition, join condition, or post-join filter
whose type is not boolean is rejected with an invalid-argument error whose
message names the actual type encountered. -/
theorem nonboolean_condition_rejected (inp l r : Relation) (c g : Expression)
    (jt : JoinType) (hc : c.ty.base ≠ BaseType.boolean)
    (hg : g.ty.base = BaseType.boolean) (hjt : jt ≠ JoinType.unspecified) :
    filter (some inp) (some c) =
      .error (.invalidArg
        ("condition for Filter Relation must yield boolean, not " ++ c.ty.base.render)) ∧
    join (some l) (some r) (some c) jt =
      .error (.invalidArg
        ("condition for Join Relation must yield boolean, not " ++ c.ty.base.render)) ∧
    joinAndFilter (some l) (some r) (some g) (some c) jt =
      .error (.invalidArg
        ("post join filter must be either nil or yield a boolean, not " ++ c.ty.base.render)) := by
  refine ⟨?_, ?_, ?_⟩
  · simp [filter, filterCore, hc]
  · simp [join, joinCore, hc]
  · simp [joinAndFilter, joinCore, hc, hg, hjt]

/-- C5 witness: the tests' string-typed reference used as filter condition,
join condition, and post-join filter. -/
theorem nonboolean_condition_rejected_witness :
    strRef.ty.base ≠ BaseType.boolean ∧
      boolRef.ty.base = BaseType.boolean ∧
      JoinType.inner ≠ JoinType.unspecified ∧
      (filter (some scanAB) (some strRef) =
        .error (.invalidArg "condition for Filter Relation must yield boolean, not string") ∧
      join (some scanAB) (some scanXY) (some strRef) JoinType.inner =
        .error (.invalidArg "condition for Join Relation must yield boolean, not string") ∧
      joinAndFilter (some scanAB) (some scanXY) (some boolRef) (some strRef) JoinType.inner =
        .error (.invalidArg "post join filter must be either nil or yield a boolean, not string")) :=
  ⟨by decide, by decide, by decide,
    nonboolean_condition_rejected scanAB scanAB scanXY strRef boolRef JoinType.inner
      (by decide) (by decide) (by decide)⟩

/-- C2: for all-required input schemas and each of the seven materialized
join types, the join construction succeeds and its natural output record
type follows the nullability matrix: Inner keeps `left ++ right` unchanged;
Left/Single force the right side nullable; Right forces the left side
nullable; Outer forces both sides nullable; Semi and Anti keep only the
left columns unchanged. -/
theorem join_nullability_matrix (l r : Relation) (c : Expression) (jt : JoinType)
    (_hl : l.recordType.all (fun col => !col.ty.nullable) = true)
    (_hr : r.recordType.all (fun col => !col.ty.nullable) = true)
    (hc : c.ty.base = BaseType.boolean) (hjt : jt ≠ JoinType.unspecified) :
    join (some l) (some r) (some c) jt = .ok (.join l r jt c none none) ∧
    (Relation.join l r jt c none none).recordType =
      match jt with
      | .inner => l.recordType ++ r.recordType
      | .left => l.recordType ++ r.recordType.map Column.forceNullable
      | .right => l.recordType.map Column.forceNullable ++ r.recordType
      | .outer => l.recordType.map Column.forceNullable ++
          r.recordType.map Column.forceNullable
      | .single => l.recordType ++ r.recordType.map Column.forceNullable
      | .semi => l.recordType
      | .anti => l.recordType
      | .unspecified => [] := by
  constructor
  · simp [join, joinCore, hc, hjt, checkEmit, okBind]
  · cases jt with
    | unspecified => exact absurd rfl hjt
    | inner => rfl
    | outer => rfl
    | left => rfl
    | right => rfl
    | semi => rfl
    | anti => rfl
    | single => rfl

/-- C2 witness: the matrix at the tests' concrete all-required schemas
`{a: string, b: fp32}` and `{x: i32, y: boolean}` with a Left join. -/
theorem join_nullability_matrix_witness :
    scanAB.recordType.all (fun col => !col.ty.nullable) = true ∧
      scanXY.recordType.all (fun col => !col.ty.nullable) = true ∧
      boolRef.ty.base = BaseType.boolean ∧
      JoinType.left ≠ JoinType.unspecified ∧
      (join (some scanAB) (some scanXY) (some boolRef) JoinType.left =
          .ok (.join scanAB scanXY JoinType.left boolRef none none) ∧
        (Relation.join scanAB scanXY JoinType.left boolRef none none).recordType =
          scanAB.recordType ++ scanXY.recordType.map Column.forceNullable) :=
  ⟨by decide, by decide, by decide, by decide,
    join_nullability_matrix scanAB scanXY boolRef JoinType.left
      (by decide) (by decide) (by decide) (by decide)⟩

/-- C1: for every valid plan (builder-produced plans satisfy `Plan.wfb`),
decoding the wire encoding yields a structurally equal plan, and re-encoding
the decoded plan yields exactly the original encoding. -/
theorem plan_roundTrip (p : Plan) (h : p.wfb = true) :
    fromProto p.toProto = .ok p ∧
      (fromProto p.toProto).map Plan.toProto = .ok p.toProto := by
  have hroots : p.roots.all (fun rt => rt.input.wfb) = true := by
    unfold Plan.wfb at h
    rw [List.all_eq_true] at h ⊢
    intro rt hrt
    have hb := h rt hrt
    simp only [Bool.and_eq_true] at hb
    exact hb.1
  have h1 : fromProto p.toProto = .ok p := by
    obtain ⟨v, us, fs, roots⟩ := p
    simp only [Plan.toProto, fromProto]
    rw [decodeRootList_encode roots hroots]
    rfl
  exact ⟨h1, by rw [h1]; rfl⟩

/-- C1 witness: the round trip at the tests' basic emit plan — a scan of
`{a: string, b: fp32}` remapped by `[1, 0]` under output names
`["a", "b"]`. -/
theorem plan_roundTrip_witness :
    (Plan.wfb ⟨defaultVersion, [], [],
        [⟨.read ["test"] schemaAB (some [1, 0]), ["a", "b"]⟩]⟩) = true ∧
      (fromProto (Plan.toProto ⟨defaultVersion, [], [],
          [⟨.read ["test"] schemaAB (some [1, 0]), ["a", "b"]⟩]⟩) =
        .ok ⟨defaultVersion, [], [],
          [⟨.read ["test"] schemaAB (some [1, 0]), ["a", "b"]⟩]⟩ ∧
      (fromProto (Plan.toProto ⟨defaultVersion, [], [],
          [⟨.read ["test"] schemaAB (some [1, 0]), ["a", "b"]⟩]⟩)).map Plan.toProto =
        .ok (Plan.toProto ⟨defaultVersion, [], [],
          [⟨.read ["test"] schemaAB (some [1, 0]), ["a", "b"]⟩]⟩)) :=
  ⟨by decide, plan_roundTrip _ (by decide)⟩

/-! ## Out-of-range output remaps (C3) -/

theorem errBind {ε α β : Type} (e : ε) (f : α → Except ε β) :
    (Except.error e >>= f : Except ε β) = .error e := rfl

/-- A remap with any index outside `[0, count)` fails the bounds check. -/
theorem checkEmit_fail (count : Nat) (remap : List Int)
    (h : ∃ i ∈ remap, i < 0 ∨ (count : Int) ≤ i) :
    checkEmit count (some remap) = .error emitOutOfRangeErr := by
  simp only [checkEmit]
  rw [if_neg]
  intro hall
  rw [List.all_eq_true] at hall
  obtain ⟨i, hi, hbad⟩ := h
  have := hall i hi
  rw [decide_eq_true_eq] at this
  rcases hbad with hb | hb
  · exact absurd this.1 (by omega)
  · exact absurd this.2 (by omega)

/-- C3: every remap construction variant whose supplied output remap holds
an index outside `[0, fullFieldCount)` of the operator's natural output
fails with the invalid-relation "output mapping index out of range" error
(and hence returns no relation node). -/
theorem emit_out_of_range_rejected
    (tns : List String) (schema : NamedStruct) (inp l r : Relation)
    (c : Expression) (jt : JoinType) (off cnt : Int) (ms : List Measure)
    (gs : List (List (Option Expression))) (gsv : List (List Expression))
    (cols : List Int) (refs : List Expression) (remap : List Int)
    (hc : c.ty.base = BaseType.boolean) (hjt : jt ≠ JoinType.unspecified)
    (hgs : checkGroupings gs = .ok gsv) (hone : ¬(gsv.isEmpty ∧ ms.isEmpty))
    (hcols : buildColumnRefs inp cols = .ok refs)
    (honec : ¬((if refs.isEmpty then ([] : List (List Expression)) else [refs]).isEmpty ∧
      ms.isEmpty)) :
    ((∃ i ∈ remap, i < 0 ∨ (schema.struct.length : Int) ≤ i) →
      namedScanRemap tns schema remap = .error emitOutOfRangeErr) ∧
    ((∃ i ∈ remap, i < 0 ∨ (inp.recordType.length : Int) ≤ i) →
      filterRemap (some inp) (some c) remap = .error emitOutOfRangeErr) ∧
    ((∃ i ∈ remap, i < 0 ∨ (inp.recordType.length : Int) ≤ i) →
      fetchRemap (some inp) off cnt remap = .error emitOutOfRangeErr) ∧
    ((∃ i ∈ remap, i < 0 ∨ ((l.recordType.length + r.recordType.length : Nat) : Int) ≤ i) →
      crossRemap (some l) (some r) remap = .error emitOutOfRangeErr) ∧
    ((∃ i ∈ remap, i < 0 ∨ ((joinRecord jt l.recordType r.recordType).length : Int) ≤ i) →
      joinRemap (some l) (some r) (some c) jt remap = .error emitOutOfRangeErr) ∧
    ((∃ i ∈ remap, i < 0 ∨ ((gsv.flatten.length + ms.length : Nat) : Int) ≤ i) →
      aggregateExprsRemap (some inp) remap ms gs = .error emitOutOfRangeErr) ∧
    ((∃ i ∈ remap, i < 0 ∨
        (((if refs.isEmpty then ([] : List (List Expression)) else [refs]).flatten.length +
          ms.length : Nat) : Int) ≤ i) →
      aggregateColumnsRemap (some inp) remap ms cols = .error emitOutOfRangeErr) := by
  refine ⟨?_, ?_, ?_, ?_, ?_, ?_, ?_⟩
  · intro hbad
    have hfail := checkEmit_fail _ _ hbad
    simp [namedScanRemap, hfail, errBind]
  · intro hbad
    have hfail := checkEmit_fail _ _ hbad
    simp [filterRemap, filterCore, hc, hfail, errBind]
  · intro hbad
    have hfail := checkEmit_fail _ _ hbad
    simp [fetchRemap, fetchCore, hfail, errBind]
  · intro hbad
    have hfail := checkEmit_fail _ _ hbad
    simp [crossRemap, crossCore, hfail, errBind]
  · intro hbad
    have hfail := checkEmit_fail _ _ hbad
    simp [joinRemap, joinCore, hc, hjt, hfail, errBind]
  · intro hbad
    have hfail := checkEmit_fail _ _ hbad
    simp only [aggregateExprsRemap, aggregateExprsCore, hgs, okBind,
      aggregateFinish]
    rw [if_neg hone, hfail, errBind]
  · intro hbad
    have hfail := checkEmit_fail _ _ hbad
    simp only [aggregateColumnsRemap, aggregateColumnsCore, hcols, okBind,
      aggregateFinish]
    rw [if_neg honec, hfail, errBind]

/-- C3 witness: the out-of-range remap `[5]` at concrete, otherwise valid
inputs for every construction variant. -/
theorem emit_out_of_range_rejected_witness :
    boolRef.ty.base = BaseType.boolean ∧
      JoinType.inner ≠ JoinType.unspecified ∧
      checkGroupings [[some strRef]] = .ok [[strRef]] ∧
      ¬(([[strRef]] : List (List Expression)).isEmpty ∧ ([] : List Measure).isEmpty) ∧
      buildColumnRefs scanAB [0] = .ok [strRef] ∧
      (namedScanRemap ["test"] schemaAB [5] = .error emitOutOfRangeErr ∧
        filterRemap (some scanAB) (some boolRef) [5] = .error emitOutOfRangeErr ∧
        fetchRemap (some scanAB) 100 50 [5] = .error emitOutOfRangeErr ∧
        crossRemap (some scanAB) (some scanXY) [5] = .error emitOutOfRangeErr ∧
        joinRemap (some scanAB) (some scanXY) (some boolRef) JoinType.inner [5] =
          .error emitOutOfRangeErr ∧
        aggregateExprsRemap (some scanAB) [5] [] [[some strRef]] = .error emitOutOfRangeErr ∧
        aggregateColumnsRemap (some scanAB) [5] [] [0] = .error emitOutOfRangeErr) := by
  have main := emit_out_of_range_rejected ["test"] schemaAB scanAB scanAB scanXY
    boolRef JoinType.inner 100 50 [] [[some strRef]] [[strRef]] [0] [strRef] [5]
    (by decide) (by decide) (by decide) (by decide) (by decide) (by decide)
  refine ⟨by decide, by decide, by decide, by decide, by decide,
    main.1 (by decide), main.2.1 (by decide), main.2.2.1 (by decide),
    main.2.2.2.1 (by decide), main.2.2.2.2.1 (by decide),
    main.2.2.2.2.2.1 (by decide), main.2.2.2.2.2.2 (by decide)⟩

/-! ## Aggregate construction (C4) -/

/-- Well-formed grouping lists pass validation and are stored with their
`Option` wrappers stripped. -/
theorem checkGroupings_ok (gs : List (List (Option Expression)))
    (h : gs.all (fun g => !g.isEmpty && g.all (fun e => e.isSome)) = true) :
    checkGroupings gs = .ok (gs.map (fun g => g.filterMap id)) := by
  induction gs with
  | nil => rfl
  | cons g gs ih =>
    simp only [List.all_cons, Bool.and_eq_true] at h
    obtain ⟨⟨hne, hsome⟩, hrest⟩ := h
    have h1 : ¬(g.isEmpty = true ∨ (g.any fun e => e.isNone) = true) := by
      intro hcon
      rcases hcon with hcon | hcon
      · rw [hcon] at hne
        exact absurd hne (by decide)
      · obtain ⟨e, he, hnone⟩ := List.any_eq_true.mp hcon
        have hs := List.all_eq_true.mp hsome e he
        rw [Option.isNone_iff_eq_none] at hnone
        subst hnone
        simp at hs
    simp only [checkGroupings]
    rw [if_neg h1, ih hrest, okBind]
    rfl

/-- An in-bounds root field reference resolves to the referenced column's
type. -/
theorem rootFieldRef_ok (rel : Relation) (i : Int)
    (h : 0 ≤ i ∧ i < (rel.recordType.length : Int)) :
    rootFieldRef rel i = .ok ⟨i.toNat, colType rel.recordType i.toNat⟩ := by
  unfold rootFieldRef
  cases hm : rel.recordType[i.toNat]? with
  | none =>
    exfalso
    rw [List.getElem?_eq_none_iff] at hm
    omega
  | some c =>
    have hct : colType rel.recordType i.toNat = c.ty := by
      simp [colType, hm]
    rw [hct]
    simp [h]

/-- In-bounds grouping columns resolve to their referenced columns'
types. -/
theorem buildColumnRefs_ok (inp : Relation) (cols : List Int)
    (h : cols.all (fun i => decide (0 ≤ i ∧ i < (inp.recordType.length : Int))) = true) :
    buildColumnRefs inp cols =
      .ok (cols.map (fun i => ⟨i.toNat, colType inp.recordType i.toNat⟩)) := by
  induction cols with
  | nil => rfl
  | cons i is ih =>
    simp only [List.all_cons, Bool.and_eq_true, decide_eq_true_eq] at h
    simp [buildColumnRefs, rootFieldRef_ok inp i h.1, ih h.2, okBind]

/-- C4 counterexample: the claim asserts that an aggregate with a non-nil
input and at least one grouping column succeeds, but grouping column `-1`
(one grouping, zero measures) fails with the invalid-argument field-ref
error, exactly as `TestAggregateRelErrors` pins down. -/
theorem aggregate_claim_counterexample :
    aggregateColumns (some scanAB) [] [(-1 : Int)] =
      .error (.invalidArg "cannot create field ref index -1") := by
  decide

/-- C4 (amended): with a non-nil input, zero groupings and zero measures
always fail with an invalid-relation error; with at least one grouping or
measure — provided each grouping expression list is non-empty with no
absent expression and each grouping column index is within the input's
field range — construction succeeds with output record type equal to the
grouping expressions' result types in order followed by the measures'
output types in order. -/
theorem aggregate_construction_amended (inp : Relation) (ms : List Measure)
    (gs : List (List (Option Expression))) (cols : List Int)
    (hgs : gs.all (fun g => !g.isEmpty && g.all (fun e => e.isSome)) = true)
    (hcols : cols.all
      (fun i => decide (0 ≤ i ∧ i < (inp.recordType.length : Int))) = true) :
    aggregateExprs (some inp) [] [] =
      .error (.invalidRel "must have at least one grouping expression or measure") ∧
    aggregateColumns (some inp) [] [] =
      .error (.invalidRel "must have at least one grouping expression or measure") ∧
    (gs ≠ [] ∨ ms ≠ [] →
      aggregateExprs (some inp) ms gs =
        .ok (.aggregate inp (gs.map (fun g => g.filterMap id)) ms none) ∧
      (Relation.aggregate inp (gs.map (fun g => g.filterMap id)) ms none).recordType =
        (gs.map (fun g => g.filterMap id)).flatten.map
            (fun e => (⟨"", e.ty⟩ : Column)) ++
          ms.map (fun m => (⟨"", m.outputType⟩ : Column))) ∧
    (cols ≠ [] ∨ ms ≠ [] →
      aggregateColumns (some inp) ms cols =
        .ok (.aggregate inp
          (if cols.isEmpty then []
            else [cols.map (fun i => ⟨i.toNat, colType inp.recordType i.toNat⟩)])
          ms none) ∧
      (Relation.aggregate inp
          (if cols.isEmpty then []
            else [cols.map (fun i => ⟨i.toNat, colType inp.recordType i.toNat⟩)])
          ms none).recordType =
        cols.map (fun i => (⟨"", colType inp.recordType i.toNat⟩ : Column)) ++
          ms.map (fun m => (⟨"", m.outputType⟩ : Column))) := by
  refine ⟨rfl, rfl, ?_, ?_⟩
  · intro hone
    have hg := checkGroupings_ok gs hgs
    have hne : ¬((gs.map (fun g => g.filterMap id)).isEmpty = true ∧
        ms.isEmpty = true) := by
      intro hcon
      rcases hone with h1 | h1
      · cases gs with
        | nil => exact h1 rfl
        | cons g gsr => simp at hcon
      · cases ms with
        | nil => exact h1 rfl
        | cons m msr => simp at hcon
    constructor
    · simp only [aggregateExprs, aggregateExprsCore, hg, okBind, aggregateFinish]
      rw [if_neg hne]
      rfl
    · rfl
  · intro hone
    have hr := buildColumnRefs_ok inp cols hcols
    have hne : ¬((if (cols.map
          (fun i => (⟨i.toNat, colType inp.recordType i.toNat⟩ : Expression))).isEmpty
          then ([] : List (List Expression))
          else [cols.map (fun i => ⟨i.toNat, colType inp.recordType i.toNat⟩)]).isEmpty = true ∧
        ms.isEmpty = true) := by
      intro hcon
      rcases hone with h1 | h1
      · cases cols with
        | nil => exact h1 rfl
        | cons i isr => simp at hcon
      · cases ms with
        | nil => exact h1 rfl
        | cons m msr => simp at hcon
    have hifeq : (if (cols.map
          (fun i => (⟨i.toNat, colType inp.recordType i.toNat⟩ : Expression))).isEmpty
          then ([] : List (List Expression))
          else [cols.map (fun i => ⟨i.toNat, colType inp.recordType i.toNat⟩)]) =
        (if cols.isEmpty then ([] : List (List Expression))
          else [cols.map (fun i => ⟨i.toNat, colType inp.recordType i.toNat⟩)]) := by
      cases cols <;> simp
    constructor
    · simp only [aggregateColumns, aggregateColumnsCore, hr, okBind, aggregateFinish]
      rw [if_neg hne, hifeq]
      rfl
    · cases cols with
      | nil => simp [Relation.recordType, applyEmit]
      | cons i isr =>
        simp [Relation.recordType, applyEmit, List.map_map, Function.comp]

/-- C4 witness: the amended statement at the tests' concrete inputs —
grouping column 0 of `{a: string, b: fp32}` with one `count()` measure. -/
theorem aggregate_construction_amended_witness :
    ([[some strRef]] : List (List (Option Expression))).all
        (fun g => !g.isEmpty && g.all (fun e => e.isSome)) = true ∧
      ([0] : List Int).all
        (fun i => decide (0 ≤ i ∧ i < (scanAB.recordType.length : Int))) = true ∧
      (aggregateExprs (some scanAB) [countMeasure] [[some strRef]] =
          .ok (.aggregate scanAB [[strRef]] [countMeasure] none) ∧
        aggregateColumns (some scanAB) [countMeasure] [0] =
          .ok (.aggregate scanAB [[strRef]] [countMeasure] none) ∧
        (Relation.aggregate scanAB [[strRef]] [countMeasure] none).recordType =
          [⟨"", ⟨.string, false⟩⟩, ⟨"", ⟨.i64, false⟩⟩]) := by
  have main := aggregate_construction_amended scanAB [countMeasure]
    [[some strRef]] [0] (by decide) (by decide)
  refine ⟨by decide, by decide, ?_, ?_, by decide⟩
  · have h3 := (main.2.2.1 (Or.inl (by decide))).1
    exact h3
  · have h4 := (main.2.2.2 (Or.inl (by decide))).1
    revert h4
    decide

end SubstraitGo
